import Mathlib

/-!
Shallow embedding of the ProgKeeper session-based authentication core
(`progkeeper/database/auth.py`, the pydantic validators in
`progkeeper/database/user.py`, and the `security_bridge` dependency in
`progkeeper/api.py`).

The relational store is modelled as an in-memory list of rows.  Python
functions that raise `ValueError` are modelled with `Except String`or
`Option`; the error strings are the exact message literals of the source.
Time (`now_utc()`) is a `Nat` Unix timestamp passed explicitly; each call
receives one logical `now`.  Session-token generation and bcrypt hashing
are external collaborators (the `secrets` and `bcrypt` libraries), so the
fresh token and the hash/verify functions are parameters of the
operations that use them.
-/

namespace ProgKeeper

/-- A row of the `sessions` table.  The `user_ip` column stores a JSON
list of IP strings; it is modelled decoded, as `ip_audit : List String`. -/
structure Session where
  id : String
  user_id : Nat
  ip_audit : List String
  expiry : Nat
deriving Repr, DecidableEq

/-- A row of the `users` table. -/
structure User where
  id : Nat
  username : String
  password : String
  nickname : Option String
deriving Repr, DecidableEq

/-- Sessions last 14 days without renewal: `60 * 60 * 24 * 14` seconds. -/
def sessionLifetime : Nat := 60 * 60 * 24 * 14

/-- The whitespace characters removed by Python's `str.strip()`
(ASCII range, which is all the username charset can interact with). -/
def pySpace (c : Char) : Bool :=
  c = ' ' || c = Char.ofNat 9 || c = Char.ofNat 10 || c = Char.ofNat 13
    || c = Char.ofNat 11 || c = Char.ofNat 12

/-- Python `str.strip()`: drop leading and trailing whitespace. -/
def pyStrip (s : String) : String :=
  String.mk (((s.toList.dropWhile pySpace).reverse.dropWhile pySpace).reverse)

/-- Python `str.lower()` restricted to ASCII, which is faithful on the
username charset. -/
def pyLower (s : String) : String :=
  String.mk (s.toList.map Char.toLower)

/-- `valid_username_chars` from `user.py` (`Login.validate_username`). -/
def valid_username_chars : List Char :=
  "abcdefghijklmnopqrstuvwxyzABCDEFGHIJKLMNOPQRSTUVWXYZ0123456789-_.".toList

/-- The username normalization performed by `Login.validate_username`:
`value.strip().lower()`. -/
def normalize_username (s : String) : String := pyLower (pyStrip s)

/-- `Login.validate_username` (`user.py`): normalize, then check length
1..50, then check the charset; returns the normalized value. -/
def validate_username (value : String) : Except String String :=
  let v := normalize_username value
  if v.length < 1 || v.length > 50 then
    Except.error "Username must be between 1 and 50 characters."
  else if v.toList.all (fun c => c ∈ valid_username_chars) then
    Except.ok v
  else
    Except.error "Username contains invalid characters."

/-- `Login.validate_password` (`user.py`): length must be 6..72. -/
def validate_password (value : String) : Except String String :=
  if value.length < 6 || value.length > 72 then
    Except.error "Password must be between 6 and 72 characters long."
  else
    Except.ok value

/-- `Registration.validate_nickname` (`user.py`), on the string case:
length must be 1..50. -/
def validate_nickname (value : String) : Except String String :=
  if value.length < 1 || value.length > 50 then
    Except.error "Nickname must be between 1 and 50 characters."
  else
    Except.ok value

/-- `Registration.nickname_from_username` (`user.py`): if `nickname` is
absent or blank after stripping, the raw (pre-normalization) `username`
is transferred into it; otherwise the provided value is kept unstripped. -/
def nickname_from_username (username : String) (nickname : Option String) : String :=
  match nickname with
  | some n => if pyStrip n = "" then username else n
  | none => username

/-- Validation of a `Registration` body as pydantic runs it: the model
validator defaults the nickname, then the field validators run in
declaration order (username, password, nickname). -/
def registration_validate (username password : String) (nickname : Option String) :
    Except String (String × String × String) :=
  let rawNickname := nickname_from_username username nickname
  match validate_username username with
  | Except.error e => Except.error e
  | Except.ok u =>
    match validate_password password with
    | Except.error e => Except.error e
    | Except.ok p =>
      match validate_nickname rawNickname with
      | Except.error e => Except.error e
      | Except.ok n => Except.ok (u, p, n)

/-- `auth.create_user`: hash the password, fail if the (already
normalized) username exists, else insert and return the new row id.
`bcrypt.hashpw` is external, so the hash function is a parameter; the
storage engine's `lastrowid` is modelled as one more than the row count. -/
def create_user (users : List User) (hash : String → String)
    (username password : String) (nickname : Option String) :
    Except String (List User × Nat) :=
  let hashed := hash password
  if (users.find? (fun u => u.username = username)).isSome then
    Except.error "Username already exists."
  else
    let uid := users.length + 1
    Except.ok (users ++ [⟨uid, username, hashed, nickname⟩], uid)

/-- The `/user/create` endpoint (`api.py` `register`): pydantic validates
the `Registration` body, then `auth.create_user` runs on the validated
(normalized) username. -/
def register (users : List User) (hash : String → String)
    (username password : String) (nickname : Option String) :
    Except String (List User × Nat) :=
  match registration_validate username password nickname with
  | Except.error e => Except.error e
  | Except.ok (u, p, n) => create_user users hash u p (some n)

/-- `auth.validate_session_id`: false on the empty string, else true iff
a row with this id and `expiry > now` exists. -/
def validate_session_id (db : List Session) (now : Nat) (session_id : String) : Bool :=
  if session_id.length = 0 then false
  else (db.find? (fun s => s.id = session_id && now < s.expiry)).isSome

/-- `auth.refresh_session`: load the row by id (false if absent), false
if `expiry < now` (already expired), otherwise append the ip to the audit
list when not present, set `expiry = now + 14 days`, and persist.
Returns the success flag together with the resulting store. -/
def refresh_session (db : List Session) (now : Nat) (session_id user_ip : String) :
    Bool × List Session :=
  let updated_expiry := now + sessionLifetime
  match db.find? (fun s => s.id = session_id) with
  | none => (false, db)
  | some s =>
    if s.expiry < now then (false, db)
    else
      let ip_list := if user_ip ∈ s.ip_audit then s.ip_audit else s.ip_audit ++ [user_ip]
      (true, db.map (fun t =>
        if t.id = session_id then { t with expiry := updated_expiry, ip_audit := ip_list } else t))

/-- `auth.get_user_id_from_session`: the owning user of a session row,
`none` for the `ValueError` raised when the row is absent.  No expiry
check is performed. -/
def get_user_id_from_session (db : List Session) (session_id : String) : Option Nat :=
  (db.find? (fun s => s.id = session_id)).map (fun s => s.user_id)

/-- `auth.create_session`: look up the user by (normalized) username,
fail `"Invalid username."` if absent, fail `"Invalid password."` if
`verify_password` rejects, else insert a session with `ip_audit = [ip]`
and `expiry = now + 14 days` and return its token.  `bcrypt.checkpw` and
the random token are external, so both are parameters. -/
def create_session (users : List User) (sessions : List Session)
    (verify : String → String → Bool) (new_token : String) (now : Nat)
    (username password ip_address : String) :
    Except String (String × List Session) :=
  let expiry_utc := now + sessionLifetime
  match users.find? (fun u => u.username = username) with
  | none => Except.error "Invalid username."
  | some u =>
    if verify password u.password then
      Except.ok (new_token, sessions ++ [⟨new_token, u.id, [ip_address], expiry_utc⟩])
    else
      Except.error "Invalid password."

/-- `auth.delete_session`: delete the row; return the token when a row
was deleted (`rowcount > 0`) and `""` otherwise. -/
def delete_session (db : List Session) (session_id : String) : String × List Session :=
  let db' := db.filter (fun s => s.id ≠ session_id)
  if db'.length < db.length then (session_id, db') else ("", db')

/-- The argument of `auth.delete_all_sessions_for_user`: an integer user
id or a string session token. -/
inductive UserRef where
  | byId (uid : Nat)
  | byToken (tok : String)
deriving Repr, DecidableEq

/-- `auth.delete_all_sessions_for_user`: a token is first resolved to its
owning user (silently returning 0 when `get_user_id_from_session`
raises); then every session of that user is deleted and the deleted row
count returned. -/
def delete_all_sessions_for_user (db : List Session) (ref : UserRef) : Nat × List Session :=
  let resolved : Option Nat :=
    match ref with
    | UserRef.byId uid => some uid
    | UserRef.byToken tok => get_user_id_from_session db tok
  match resolved with
  | none => (0, db)
  | some uid =>
    let db' := db.filter (fun s => s.user_id ≠ uid)
    (db.length - db'.length, db')

/-- The `UNAUTHENTICATED` exception detail of `api.py`. -/
def unauthenticatedDetail : String := "Invalid or missing authentication credentials."

/-- `api.security_bridge` (`api.py`).  Bearer extraction is performed by
the framework's `HTTPBearer` dependency, which is not part of this
repository; modelled from the spec: a missing or malformed bearer token
fails `Unauthenticated` (here `bearer = none`).  With a token present the
source is followed: fail `Unauthenticated` when `validate_session_id` is
false, otherwise call `refresh_session` unconditionally (its result is
discarded) and return the credentials. -/
def security_bridge (db : List Session) (now : Nat) (bearer : Option String)
    (client_ip : String) : Except String (String × List Session) :=
  match bearer with
  | none => Except.error unauthenticatedDetail
  | some session_id =>
    if validate_session_id db now session_id then
      Except.ok (session_id, (refresh_session db now session_id client_ip).2)
    else
      Except.error unauthenticatedDetail

/-! ### Helper lemmas -/

theorem filter_length_lt_of_mem {α : Type} {l : List α} {p : α → Bool} {x : α}
    (hx : x ∈ l) (hpx : p x = false) : (l.filter p).length < l.length := by
  induction l with
  | nil => simp at hx
  | cons a t ih =>
    rcases List.mem_cons.mp hx with rfl | hxt
    · have h1 := List.length_filter_le p t
      simp [List.filter_cons, hpx]
      omega
    · by_cases hpa : p a = true
      · have := ih hxt
        simp [List.filter_cons, hpa]
        omega
      · have h1 := List.length_filter_le p t
        simp only [List.filter_cons, hpa, Bool.false_eq_true, if_false, List.length_cons]
        omega

theorem ne_filter_eq_not_eq_filter (db : List Session) (uid : Nat) :
    db.filter (fun s => s.user_id ≠ uid)
      = db.filter (fun s => !decide (s.user_id = uid)) := by
  congr 1
  funext s
  simp [decide_not]

theorem delete_all_byToken_eq (db : List Session) (tok : String) :
    delete_all_sessions_for_user db (UserRef.byToken tok)
      = match get_user_id_from_session db tok with
        | none => (0, db)
        | some uid => delete_all_sessions_for_user db (UserRef.byId uid) := by
  cases hg : get_user_id_from_session db tok with
  | none => simp only [delete_all_sessions_for_user, hg]
  | some uid => simp only [delete_all_sessions_for_user, hg]

/-! ### C1 -/

/-- A store with one session whose expiry equals the current time. -/
def c1db : List Session := [⟨"t", 1, ["1.2.3.4"], 100⟩]

/-- C1, counterexample: the claim says that whenever a session's
`expiry <= now` both `validate_session_id` and `refresh_session` fail.
At `expiry = now` exactly, `validate_session_id` (which requires
`expiry > now`) already fails, but `refresh_session` (which only rejects
`expiry < now`) succeeds and re-extends the session, which then validates
again at a later instant. -/
theorem C1_expiry_boundary_counterexample :
    (∃ s ∈ c1db, s.id = "t" ∧ s.expiry ≤ 100) ∧
    validate_session_id c1db 100 "t" = false ∧
    (refresh_session c1db 100 "t" "5.6.7.8").1 = true ∧
    validate_session_id (refresh_session c1db 100 "t" "5.6.7.8").2 101 "t" = true := by
  refine ⟨⟨⟨"t", 1, ["1.2.3.4"], 100⟩, by decide⟩, by decide, by decide, by decide⟩

/-- C1, amended: for every session whose expiry has passed, `validate_session_id`
returns false whenever `expiry <= now`, and `refresh_session` returns false
without touching the store whenever `expiry < now` strictly (at
`expiry = now` exactly, validate fails but refresh still succeeds). -/
theorem C1_expired_sessions_fail (db : List Session) (now : Nat) (tok ip : String)
    (h : ∀ s ∈ db, s.id = tok → s.expiry ≤ now) :
    validate_session_id db now tok = false ∧
      ∀ s, db.find? (fun x => x.id = tok) = some s → s.expiry < now →
        refresh_session db now tok ip = (false, db) := by
  constructor
  · unfold validate_session_id
    split
    · rfl
    · have hnone : db.find? (fun s => s.id = tok && decide (now < s.expiry)) = none := by
        rw [List.find?_eq_none]
        intro x hx
        simp only [Bool.and_eq_true, decide_eq_true_eq, not_and]
        intro hid
        have := h x hx hid
        omega
      rw [hnone]
      rfl
  · intro s hs hexp
    unfold refresh_session
    rw [hs]
    simp [hexp]

theorem C1_expired_sessions_fail_witness :
    validate_session_id [⟨"t", 1, [], 50⟩] 100 "t" = false ∧
      refresh_session [⟨"t", 1, [], 50⟩] 100 "t" "ip" = (false, [⟨"t", 1, [], 50⟩]) := by
  have h := C1_expired_sessions_fail [⟨"t", 1, [], 50⟩] 100 "t" "ip" (by decide)
  exact ⟨h.1, h.2 ⟨"t", 1, [], 50⟩ rfl (by decide)⟩

/-! ### C2 -/

/-- A one-user store for exercising `create_session`. -/
def c2users : List User := [⟨1, "alice", "stored-hash", none⟩]

/-- Test double for the external `bcrypt.checkpw`: accepts exactly the
stored value. -/
def c2verify : String → String → Bool := fun p h => p = h

/-- C2: the two login failure sub-cases of `create_session` are NOT
identical: an unknown username raises `"Invalid username."` while a wrong
password for an existing user raises `"Invalid password."`, so the caller
can distinguish them (username enumeration). -/
theorem C2_login_errors_distinguishable :
    create_session c2users [] c2verify "tok" 0 "bob" "stored-hash" "1.2.3.4"
        = Except.error "Invalid username." ∧
    create_session c2users [] c2verify "tok" 0 "alice" "wrong-pw" "1.2.3.4"
        = Except.error "Invalid password." ∧
    ("Invalid username." : String) ≠ "Invalid password." := by
  exact ⟨rfl, rfl, by decide⟩

/-! ### C9 -/

/-- C9: whenever `refresh_session` reports failure, the session store is
returned unchanged — both failure paths (no row, already expired) exit
before the UPDATE. -/
theorem C9_failed_refresh_writes_nothing (db : List Session) (now : Nat) (tok ip : String) :
    (refresh_session db now tok ip).1 = false → (refresh_session db now tok ip).2 = db := by
  unfold refresh_session
  cases hf : db.find? (fun s => s.id = tok) with
  | none => intro _; rfl
  | some s =>
    by_cases hexp : s.expiry < now
    · simp [hexp]
    · simp [hexp]

theorem C9_failed_refresh_writes_nothing_witness :
    (refresh_session ([] : List Session) 0 "t" "i").2 = [] :=
  C9_failed_refresh_writes_nothing [] 0 "t" "i" rfl

/-! ### C6 -/

/-- C6: `delete_session` returns the token when a matching row was
deleted and `""` when none exists; the store afterwards holds no session
with that token, a store without the token is returned unchanged with
`""` (a successful no-op, not an error), and a second call on the result
again reports not-found. -/
theorem C6_delete_session_idempotent (db : List Session) (tok : String) :
    ((∃ s ∈ db, s.id = tok) → (delete_session db tok).1 = tok) ∧
    (∀ s ∈ (delete_session db tok).2, s.id ≠ tok) ∧
    ((∀ s ∈ db, s.id ≠ tok) → delete_session db tok = ("", db)) ∧
    delete_session (delete_session db tok).2 tok = ("", (delete_session db tok).2) := by
  have hsnd : (delete_session db tok).2 = db.filter (fun s => s.id ≠ tok) := by
    unfold delete_session
    dsimp only
    split <;> rfl
  have hclean : ∀ s ∈ (delete_session db tok).2, s.id ≠ tok := by
    intro s hs
    rw [hsnd] at hs
    exact of_decide_eq_true (List.mem_filter.mp hs).2
  have hnoop : ∀ d : List Session, (∀ s ∈ d, s.id ≠ tok) → delete_session d tok = ("", d) := by
    intro d hd
    have hfix : d.filter (fun s => s.id ≠ tok) = d :=
      List.filter_eq_self.mpr fun s hs => decide_eq_true (hd s hs)
    unfold delete_session
    rw [hfix]
    simp
  refine ⟨?_, hclean, hnoop db, hnoop _ hclean⟩
  intro ⟨s, hmem, hid⟩
  have hlt : (db.filter (fun s => s.id ≠ tok)).length < db.length :=
    filter_length_lt_of_mem hmem (by simp [hid])
  unfold delete_session
  rw [if_pos hlt]

theorem C6_delete_session_idempotent_witness :
    (delete_session [⟨"t", 1, [], 50⟩] "t").1 = "t" ∧
      delete_session ([] : List Session) "t" = ("", []) :=
  ⟨(C6_delete_session_idempotent [⟨"t", 1, [], 50⟩] "t").1 (by decide),
    (C6_delete_session_idempotent [] "t").2.2.1 (by decide)⟩

/-! ### C5 -/

/-- C5: `delete_all_sessions_for_user` on a user id removes exactly that
user's sessions (every other user's session survives, every survivor is
an original row not owned by the user), returns the number removed, is a
`(0, unchanged)` no-op when the user owns no sessions, and returns
`(0, unchanged)` when given a token that resolves to no session. -/
theorem C5_delete_all_exact (db : List Session) (uid : Nat) :
    (∀ s ∈ db, s.user_id ≠ uid → s ∈ (delete_all_sessions_for_user db (UserRef.byId uid)).2) ∧
    (∀ s ∈ (delete_all_sessions_for_user db (UserRef.byId uid)).2, s ∈ db ∧ s.user_id ≠ uid) ∧
    (delete_all_sessions_for_user db (UserRef.byId uid)).1
        = (db.filter (fun s => s.user_id = uid)).length ∧
    ((∀ s ∈ db, s.user_id ≠ uid) → delete_all_sessions_for_user db (UserRef.byId uid) = (0, db)) ∧
    (∀ tok, get_user_id_from_session db tok = none →
      delete_all_sessions_for_user db (UserRef.byToken tok) = (0, db)) := by
  have hres : delete_all_sessions_for_user db (UserRef.byId uid)
      = (db.length - (db.filter (fun s => s.user_id ≠ uid)).length,
          db.filter (fun s => s.user_id ≠ uid)) := rfl
  have hcount : db.length - (db.filter (fun s => s.user_id ≠ uid)).length
      = (db.filter (fun s => s.user_id = uid)).length := by
    rw [ne_filter_eq_not_eq_filter]
    have h := List.length_eq_length_filter_add (l := db) (fun s => decide (s.user_id = uid))
    omega
  refine ⟨?_, ?_, ?_, ?_, ?_⟩
  · intro s hs hne
    rw [hres]
    exact List.mem_filter.mpr ⟨hs, decide_eq_true hne⟩
  · intro s hs
    rw [hres] at hs
    have h := List.mem_filter.mp hs
    exact ⟨h.1, of_decide_eq_true h.2⟩
  · rw [hres]
    exact hcount
  · intro hall
    have hfix : db.filter (fun s => s.user_id ≠ uid) = db :=
      List.filter_eq_self.mpr fun s hs => decide_eq_true (hall s hs)
    rw [hres, hfix]
    simp
  · intro tok hnone
    rw [delete_all_byToken_eq, hnone]

theorem C5_delete_all_exact_witness :
    delete_all_sessions_for_user [⟨"t", 3, [], 10⟩] (UserRef.byId 5) = (0, [⟨"t", 3, [], 10⟩]) ∧
    delete_all_sessions_for_user [⟨"t", 3, [], 10⟩] (UserRef.byToken "zzz")
      = (0, [⟨"t", 3, [], 10⟩]) :=
  ⟨(C5_delete_all_exact [⟨"t", 3, [], 10⟩] 5).2.2.2.1 (by decide),
    (C5_delete_all_exact [⟨"t", 3, [], 10⟩] 5).2.2.2.2 "zzz" rfl⟩

/-! ### C10 -/

/-- C10: `delete_all_sessions_for_user` never checks liveness when given
a token: any physically present row — here explicitly an expired one,
`expiry <= now` — resolves the owning user and all of that user's
sessions are deleted. -/
theorem C10_token_resolution_ignores_expiry (db : List Session) (tok : String) (s : Session)
    (now : Nat) (hfind : db.find? (fun x => x.id = tok) = some s) (_hexp : s.expiry ≤ now) :
    delete_all_sessions_for_user db (UserRef.byToken tok)
      = ((db.filter (fun x => x.user_id = s.user_id)).length,
          db.filter (fun x => x.user_id ≠ s.user_id)) := by
  have hcount : db.length - (db.filter (fun x => x.user_id ≠ s.user_id)).length
      = (db.filter (fun x => x.user_id = s.user_id)).length := by
    rw [ne_filter_eq_not_eq_filter]
    have h := List.length_eq_length_filter_add (l := db) (fun x => decide (x.user_id = s.user_id))
    omega
  have hg : get_user_id_from_session db tok = some s.user_id := by
    unfold get_user_id_from_session
    rw [hfind]
    rfl
  have hbyid : delete_all_sessions_for_user db (UserRef.byId s.user_id)
      = (db.length - (db.filter (fun x => x.user_id ≠ s.user_id)).length,
          db.filter (fun x => x.user_id ≠ s.user_id)) := rfl
  rw [delete_all_byToken_eq, hg]
  dsimp only
  rw [hbyid, hcount]

/-- A two-user store whose first session is already expired at time 100. -/
def c10db : List Session := [⟨"t", 3, [], 10⟩, ⟨"u", 4, [], 999⟩]

theorem C10_token_resolution_ignores_expiry_witness :
    delete_all_sessions_for_user c10db (UserRef.byToken "t")
      = ((c10db.filter (fun x => x.user_id = 3)).length,
          c10db.filter (fun x => x.user_id ≠ 3)) :=
  C10_token_resolution_ignores_expiry c10db "t" ⟨"t", 3, [], 10⟩ 100 rfl (by decide)

/-! ### C8 -/

/-- C8: `security_bridge` fails with the `Unauthenticated` detail when
the bearer token is missing (modelled from the spec: `HTTPBearer` is
framework code) or when `validate_session_id` is false; otherwise it
calls `refresh_session` with the token and caller IP unconditionally and
returns the credentials together with the refreshed store. -/
theorem C8_security_bridge_behavior (db : List Session) (now : Nat)
    (bearer : Option String) (ip : String) :
    (bearer = none → security_bridge db now bearer ip = Except.error unauthenticatedDetail) ∧
    (∀ tok, bearer = some tok → validate_session_id db now tok = false →
      security_bridge db now bearer ip = Except.error unauthenticatedDetail) ∧
    (∀ tok, bearer = some tok → validate_session_id db now tok = true →
      security_bridge db now bearer ip
        = Except.ok (tok, (refresh_session db now tok ip).2)) := by
  refine ⟨?_, ?_, ?_⟩
  · intro h
    rw [h]
    rfl
  · intro tok h hv
    subst h
    simp [security_bridge, hv]
  · intro tok h hv
    subst h
    simp [security_bridge, hv]

theorem C8_security_bridge_behavior_witness :
    security_bridge ([] : List Session) 0 none "ip" = Except.error unauthenticatedDetail ∧
    security_bridge [⟨"t", 1, ["a"], 100⟩] 10 (some "t") "b"
      = Except.ok ("t", (refresh_session [⟨"t", 1, ["a"], 100⟩] 10 "t" "b").2) :=
  ⟨(C8_security_bridge_behavior [] 0 none "ip").1 rfl,
    (C8_security_bridge_behavior [⟨"t", 1, ["a"], 100⟩] 10 (some "t") "b").2.2 "t" rfl (by decide)⟩

/-! ### C7 -/

/-- C7: starting from duplicate-free audit lists (and unique session
ids, the storage engine's token uniqueness constraint), `refresh_session`
keeps every `ip_audit` duplicate-free, and relates each stored list to
its predecessor by either leaving it unchanged or appending the
refreshing IP at the end when it was not already present — never
reordering or removing entries. -/
theorem C7_ip_audit_no_duplicates (db : List Session) (now : Nat) (tok ip : String)
    (hids : (db.map (fun s => s.id)).Nodup)
    (h : ∀ s ∈ db, s.ip_audit.Nodup) :
    (∀ t ∈ (refresh_session db now tok ip).2, t.ip_audit.Nodup) ∧
    List.Forall₂
      (fun a b => b.ip_audit = a.ip_audit
        ∨ (ip ∉ a.ip_audit ∧ b.ip_audit = a.ip_audit ++ [ip]))
      db (refresh_session db now tok ip).2 := by
  have hrefl : List.Forall₂
      (fun a b => b.ip_audit = a.ip_audit
        ∨ (ip ∉ a.ip_audit ∧ b.ip_audit = a.ip_audit ++ [ip])) db db :=
    List.forall₂_same.mpr (fun a _ => Or.inl rfl)
  cases hf : db.find? (fun s => s.id = tok) with
  | none =>
    have hres : (refresh_session db now tok ip).2 = db := by
      unfold refresh_session
      rw [hf]
    rw [hres]
    exact ⟨h, hrefl⟩
  | some s =>
    have hsmem : s ∈ db := List.mem_of_find?_eq_some hf
    have hsid0 := List.find?_some hf
    have hsid : s.id = tok := by simpa using hsid0
    by_cases hexp : s.expiry < now
    · have hres : (refresh_session db now tok ip).2 = db := by
        unfold refresh_session
        rw [hf]
        dsimp only
        rw [if_pos hexp]
      rw [hres]
      exact ⟨h, hrefl⟩
    · have hres : (refresh_session db now tok ip).2
          = db.map (fun t =>
              if t.id = tok then
                { t with expiry := now + sessionLifetime,
                         ip_audit :=
                           if ip ∈ s.ip_audit then s.ip_audit else s.ip_audit ++ [ip] }
              else t) := by
        unfold refresh_session
        rw [hf]
        dsimp only
        rw [if_neg hexp]
      have hlstnodup : (if ip ∈ s.ip_audit then s.ip_audit else s.ip_audit ++ [ip]).Nodup := by
        by_cases hin : ip ∈ s.ip_audit
        · rw [if_pos hin]
          exact h s hsmem
        · rw [if_neg hin]
          simp [List.nodup_append, h s hsmem, hin]
      rw [hres]
      constructor
      · intro t ht
        obtain ⟨a, hamem, haeq⟩ := List.mem_map.mp ht
        by_cases hida : a.id = tok
        · rw [if_pos hida] at haeq
          rw [← haeq]
          exact hlstnodup
        · rw [if_neg hida] at haeq
          rw [← haeq]
          exact h a hamem
      · rw [List.forall₂_map_right_iff]
        refine List.forall₂_same.mpr (fun a hamem => ?_)
        by_cases hida : a.id = tok
        · have haeqs : a = s :=
            List.inj_on_of_nodup_map hids hamem hsmem (hida.trans hsid.symm)
          rw [if_pos hida]
          subst haeqs
          by_cases hin : ip ∈ a.ip_audit
          · rw [if_pos hin]
            exact Or.inl rfl
          · rw [if_neg hin]
            exact Or.inr ⟨hin, rfl⟩
        · rw [if_neg hida]
          exact Or.inl rfl

/-- A one-session store with one audited IP. -/
def c7db : List Session := [⟨"t", 1, ["1.2.3.4"], 100⟩]

theorem C7_ip_audit_no_duplicates_witness :
    (∀ t ∈ (refresh_session c7db 10 "t" "5.6.7.8").2, t.ip_audit.Nodup) ∧
    List.Forall₂
      (fun a b => b.ip_audit = a.ip_audit
        ∨ ("5.6.7.8" ∉ a.ip_audit ∧ b.ip_audit = a.ip_audit ++ ["5.6.7.8"]))
      c7db (refresh_session c7db 10 "t" "5.6.7.8").2 :=
  C7_ip_audit_no_duplicates c7db 10 "t" "5.6.7.8" (by decide) (by decide)

/-! ### C4 -/

/-- Every stored expiry was written as `t + sessionLifetime` at some
instant `t ≤ now` (true of every store reachable through `create_session`
and `refresh_session` once `now` has been reached). -/
def expiryBounded (db : List Session) (now : Nat) : Prop :=
  ∀ s ∈ db, s.expiry ≤ now + sessionLifetime

/-- A sequence of `refresh_session` calls, each given by
`(now, token, ip)`, applied to the store in order. -/
def refreshMany (db : List Session) (steps : List (Nat × String × String)) : List Session :=
  steps.foldl (fun d step => (refresh_session d step.1 step.2.1 step.2.2).2) db

theorem expiryBounded_mono {db : List Session} {n m : Nat} (h : n ≤ m)
    (hb : expiryBounded db n) : expiryBounded db m := by
  intro s hs
  have := hb s hs
  omega

theorem refresh_expiry_step (db : List Session) (now : Nat) (tok ip : String)
    (hb : expiryBounded db now) :
    List.Forall₂ (fun a b => a.expiry ≤ b.expiry) db (refresh_session db now tok ip).2
      ∧ expiryBounded (refresh_session db now tok ip).2 now := by
  have hrefl : List.Forall₂ (fun a b : Session => a.expiry ≤ b.expiry) db db :=
    List.forall₂_same.mpr (fun a _ => le_refl _)
  cases hf : db.find? (fun s => s.id = tok) with
  | none =>
    have hres : (refresh_session db now tok ip).2 = db := by
      unfold refresh_session
      rw [hf]
    rw [hres]
    exact ⟨hrefl, hb⟩
  | some s =>
    by_cases hexp : s.expiry < now
    · have hres : (refresh_session db now tok ip).2 = db := by
        unfold refresh_session
        rw [hf]
        dsimp only
        rw [if_pos hexp]
      rw [hres]
      exact ⟨hrefl, hb⟩
    · have hres : (refresh_session db now tok ip).2
          = db.map (fun t =>
              if t.id = tok then
                { t with expiry := now + sessionLifetime,
                         ip_audit :=
                           if ip ∈ s.ip_audit then s.ip_audit else s.ip_audit ++ [ip] }
              else t) := by
        unfold refresh_session
        rw [hf]
        dsimp only
        rw [if_neg hexp]
      rw [hres]
      constructor
      · rw [List.forall₂_map_right_iff]
        refine List.forall₂_same.mpr (fun a hamem => ?_)
        by_cases hida : a.id = tok
        · rw [if_pos hida]
          exact hb a hamem
        · rw [if_neg hida]
      · intro t ht
        obtain ⟨a, hamem, haeq⟩ := List.mem_map.mp ht
        by_cases hida : a.id = tok
        · rw [if_pos hida] at haeq
          rw [← haeq]
        · rw [if_neg hida] at haeq
          rw [← haeq]
          exact hb a hamem

theorem forall₂_expiry_le_trans {l₁ l₂ l₃ : List Session}
    (h₁ : List.Forall₂ (fun a b => a.expiry ≤ b.expiry) l₁ l₂)
    (h₂ : List.Forall₂ (fun a b => a.expiry ≤ b.expiry) l₂ l₃) :
    List.Forall₂ (fun a b => a.expiry ≤ b.expiry) l₁ l₃ := by
  induction h₁ generalizing l₃ with
  | nil =>
    cases h₂
    exact List.Forall₂.nil
  | cons hab htail ih =>
    cases h₂ with
    | cons hbc htail₂ => exact List.Forall₂.cons (le_trans hab hbc) (ih htail₂)

theorem refreshMany_expiry_mono (steps : List (Nat × String × String)) (db : List Session)
    (now₀ : Nat) (hb : expiryBounded db now₀)
    (hchain : List.Chain (fun a b => a ≤ b) now₀ (steps.map Prod.fst)) :
    List.Forall₂ (fun a b => a.expiry ≤ b.expiry) db (refreshMany db steps) := by
  induction steps generalizing db now₀ with
  | nil => exact List.forall₂_same.mpr (fun a _ => le_refl _)
  | cons st rest ih =>
    rw [List.map_cons] at hchain
    cases hchain with
    | cons h₀ hrest =>
      have hb1 : expiryBounded db st.1 := expiryBounded_mono h₀ hb
      have step := refresh_expiry_step db st.1 st.2.1 st.2.2 hb1
      have ihr := ih _ st.1 step.2 hrest
      exact forall₂_expiry_le_trans step.1 ihr

/-- C4: a successful `refresh_session` sets the expiry of the refreshed
session to exactly `now + 14 days`, and under the reachable-store
invariant (every expiry was written as `t + 14 days` at some `t ≤ now`)
no session's expiry ever decreases — neither in a single refresh nor
across any sequence of refreshes performed at non-decreasing times. -/
theorem C4_refresh_never_decreases_expiry :
    (∀ (db : List Session) (now : Nat) (tok ip : String) (s : Session),
        db.find? (fun x => x.id = tok) = some s → ¬ s.expiry < now → expiryBounded db now →
          (refresh_session db now tok ip).1 = true
          ∧ (∀ t ∈ (refresh_session db now tok ip).2, t.id = tok →
              t.expiry = now + sessionLifetime)
          ∧ List.Forall₂ (fun a b => a.expiry ≤ b.expiry) db (refresh_session db now tok ip).2)
    ∧ (∀ (db : List Session) (now₀ : Nat) (steps : List (Nat × String × String)),
        expiryBounded db now₀ → List.Chain (fun a b => a ≤ b) now₀ (steps.map Prod.fst) →
          List.Forall₂ (fun a b => a.expiry ≤ b.expiry) db (refreshMany db steps)) := by
  constructor
  · intro db now tok ip s hf hexp hb
    have hres1 : (refresh_session db now tok ip).1 = true := by
      unfold refresh_session
      rw [hf]
      dsimp only
      rw [if_neg hexp]
    have hres : (refresh_session db now tok ip).2
        = db.map (fun t =>
            if t.id = tok then
              { t with expiry := now + sessionLifetime,
                       ip_audit :=
                         if ip ∈ s.ip_audit then s.ip_audit else s.ip_audit ++ [ip] }
            else t) := by
      unfold refresh_session
      rw [hf]
      dsimp only
      rw [if_neg hexp]
    refine ⟨hres1, ?_, (refresh_expiry_step db now tok ip hb).1⟩
    intro t ht htid
    rw [hres] at ht
    obtain ⟨a, hamem, haeq⟩ := List.mem_map.mp ht
    by_cases hida : a.id = tok
    · rw [if_pos hida] at haeq
      rw [← haeq]
    · rw [if_neg hida] at haeq
      rw [haeq] at hida
      exact absurd htid hida
  · intro db now₀ steps hb hchain
    exact refreshMany_expiry_mono steps db now₀ hb hchain

/-- A one-session store created at time 0 (expiry far below the 14-day
bound), refreshed twice at increasing times. -/
def c4db : List Session := [⟨"t", 1, [], 100⟩]

theorem C4_refresh_never_decreases_expiry_witness :
    (refresh_session c4db 50 "t" "ip").1 = true ∧
    List.Forall₂ (fun a b => a.expiry ≤ b.expiry) c4db
      (refreshMany c4db [(50, "t", "ip"), (60, "t", "ip2")]) := by
  refine ⟨(C4_refresh_never_decreases_expiry.1 c4db 50 "t" "ip"
      ⟨"t", 1, [], 100⟩ rfl (by decide) ?_).1,
    C4_refresh_never_decreases_expiry.2 c4db 50
      [(50, "t", "ip"), (60, "t", "ip2")] ?_ ?_⟩
  · unfold expiryBounded
    decide
  · unfold expiryBounded
    decide
  · simp only [List.map_cons, List.map_nil]
    exact List.Chain.cons (by omega) (List.Chain.cons (by omega) List.Chain.nil)

/-! ### C3 -/

theorem create_user_duplicate (users : List User) (hash : String → String)
    (v p : String) (nick : Option String)
    (hex : ∃ usr ∈ users, usr.username = v) :
    create_user users hash v p nick = Except.error "Username already exists." := by
  obtain ⟨usr, hmem, husr⟩ := hex
  have hsome : (users.find? (fun x => x.username = v)).isSome = true :=
    List.find?_isSome.mpr ⟨usr, hmem, by simp [husr]⟩
  unfold create_user
  dsimp only
  rw [if_pos hsome]

theorem create_user_fresh (users : List User) (hash : String → String)
    (v p : String) (nick : Option String)
    (hnone : ∀ usr ∈ users, usr.username ≠ v) :
    create_user users hash v p nick
      = Except.ok (users ++ [⟨users.length + 1, v, hash p, nick⟩], users.length + 1) := by
  have hn : users.find? (fun x => x.username = v) = none := by
    rw [List.find?_eq_none]
    intro x hx
    simp only [decide_eq_true_eq]
    exact hnone x hx
  unfold create_user
  dsimp only
  rw [hn]
  rfl

theorem register_eq_create (users : List User) (hash : String → String)
    (u p : String) (n : Option String)
    (hvu : validate_username u = Except.ok (normalize_username u))
    (hvp : validate_password p = Except.ok p)
    (hvn : validate_nickname (nickname_from_username u n)
      = Except.ok (nickname_from_username u n)) :
    register users hash u p n
      = create_user users hash (normalize_username u) p
          (some (nickname_from_username u n)) := by
  unfold register registration_validate
  dsimp only
  rw [hvu]
  dsimp only
  rw [hvp]
  dsimp only
  rw [hvn]

/-- C3: the `/user/create` flow (pydantic validation of `Registration`
followed by `auth.create_user`) first normalizes the username (strip,
then lowercase); a normalized length outside 1..50 or a character outside
letters/digits/`-_.` is a validation error, a password length outside
6..72 is a validation error, a normalized name already present is a
duplicate-username error, and on success exactly the normalized name is
stored. -/
theorem C3_create_user_validation (users : List User) (hash : String → String)
    (u p : String) (n : Option String) :
    ((normalize_username u).length < 1 ∨ 50 < (normalize_username u).length →
        register users hash u p n
          = Except.error "Username must be between 1 and 50 characters.")
    ∧ (1 ≤ (normalize_username u).length → (normalize_username u).length ≤ 50 →
        (∃ c ∈ (normalize_username u).toList, c ∉ valid_username_chars) →
        register users hash u p n
          = Except.error "Username contains invalid characters.")
    ∧ (validate_username u = Except.ok (normalize_username u) →
        p.length < 6 ∨ 72 < p.length →
        register users hash u p n
          = Except.error "Password must be between 6 and 72 characters long.")
    ∧ (validate_username u = Except.ok (normalize_username u) →
        validate_password p = Except.ok p →
        validate_nickname (nickname_from_username u n)
          = Except.ok (nickname_from_username u n) →
        (∃ usr ∈ users, usr.username = normalize_username u) →
        register users hash u p n = Except.error "Username already exists.")
    ∧ (validate_username u = Except.ok (normalize_username u) →
        validate_password p = Except.ok p →
        validate_nickname (nickname_from_username u n)
          = Except.ok (nickname_from_username u n) →
        (∀ usr ∈ users, usr.username ≠ normalize_username u) →
        register users hash u p n
          = Except.ok (users ++ [⟨users.length + 1, normalize_username u, hash p,
              some (nickname_from_username u n)⟩], users.length + 1)) := by
  refine ⟨?_, ?_, ?_, ?_, ?_⟩
  · intro h
    have hvu : validate_username u
        = Except.error "Username must be between 1 and 50 characters." := by
      unfold validate_username
      dsimp only
      rw [if_pos (by simp only [Bool.or_eq_true, decide_eq_true_eq]; exact h)]
    unfold register registration_validate
    dsimp only
    rw [hvu]
  · intro h1 h2 hex
    have hvu : validate_username u
        = Except.error "Username contains invalid characters." := by
      unfold validate_username
      dsimp only
      rw [if_neg (by simp only [Bool.or_eq_true, decide_eq_true_eq]; omega)]
      rw [if_neg ?_]
      simp only [List.all_eq_true, decide_eq_true_eq]
      intro hall
      obtain ⟨c, hc, hnc⟩ := hex
      exact hnc (hall c hc)
    unfold register registration_validate
    dsimp only
    rw [hvu]
  · intro hvu h
    have hvp : validate_password p
        = Except.error "Password must be between 6 and 72 characters long." := by
      unfold validate_password
      rw [if_pos (by simp only [Bool.or_eq_true, decide_eq_true_eq]; exact h)]
    unfold register registration_validate
    dsimp only
    rw [hvu]
    dsimp only
    rw [hvp]
  · intro hvu hvp hvn hex
    rw [register_eq_create users hash u p n hvu hvp hvn]
    exact create_user_duplicate users hash (normalize_username u) p
      (some (nickname_from_username u n)) hex
  · intro hvu hvp hvn hnone
    rw [register_eq_create users hash u p n hvu hvp hvn]
    exact create_user_fresh users hash (normalize_username u) p
      (some (nickname_from_username u n)) hnone

theorem C3_create_user_validation_witness :
    register [] (fun s => s) "  Foo_Bar " "secret1" none
      = Except.ok ([⟨1, "foo_bar", "secret1", some "  Foo_Bar "⟩], 1) :=
  (C3_create_user_validation [] (fun s => s) "  Foo_Bar " "secret1" none).2.2.2.2
    rfl rfl rfl (by decide)

end ProgKeeper
